import Mathlib

/-!
Verification of the mkv_cruncher decision-and-orchestration engine
against its specification.

The Rust sources (src/main.rs, src/args.rs, src/ffprobe/mkv.rs,
src/ffprobe/error.rs) are shallowly embedded below: the pure
stream-selection functions become Lean functions over the probed
metadata model, the command-builder fragments become list-producing
functions, and the per-file batch loop becomes explicit recursion over
an environment list that records the outcomes of the external effects
(probe, spawn, wait, copy, hash, remove).  Sizes are `Nat` (the probe
parses them as `u64`; no arithmetic overflows a `u64` here).  The
probed duration is `f64` in the source but is only ever displayed on
the progress bar, never branched on, so seconds as `Nat` suffice.
-/

namespace MkvCruncher

/-! ## Data model (src/ffprobe/mkv.rs) -/

/-- Tagged stream kind, mirroring `CodecType` in src/ffprobe/mkv.rs. -/
inductive CodecType where
  | audio (language title : String) (channels : Nat)
  | video (language title : String)
  | subtitle (language title : String)
  | attachment (filename mime_type : String)
deriving DecidableEq

/-- One probed track, mirroring `Stream` in src/ffprobe/mkv.rs. -/
structure Stream where
  codec : String
  codec_type : CodecType
deriving DecidableEq

/-- `Stream::channels` (src/ffprobe/mkv.rs:109). -/
def Stream.channels (s : Stream) : Nat :=
  match s.codec_type with
  | .audio _ _ c => c
  | _ => 0

/-- `Stream::stream_title` (src/ffprobe/mkv.rs:118). -/
def Stream.stream_title (s : Stream) : String :=
  match s.codec_type with
  | .audio _ t _ => t
  | .video _ t => t
  | .subtitle _ t => t
  | .attachment f _ => f

/-- `Stream::stream_language` (src/ffprobe/mkv.rs:127). -/
def Stream.stream_language (s : Stream) : String :=
  match s.codec_type with
  | .audio l _ _ => l
  | .video l _ => l
  | .subtitle l _ => l
  | .attachment _ _ => ""

/-- Kind testers used to embed the `matches!` filters of the accessors. -/
def CodecType.is_audio : CodecType → Bool
  | .audio _ _ _ => true
  | _ => false

def CodecType.is_video : CodecType → Bool
  | .video _ _ => true
  | _ => false

def CodecType.is_subtitle : CodecType → Bool
  | .subtitle _ _ => true
  | _ => false

def CodecType.is_attachment : CodecType → Bool
  | .attachment _ _ => true
  | _ => false

/-- One probed container, mirroring `MkvFile` in src/ffprobe/mkv.rs. -/
structure MkvFile where
  size : Nat
  duration : Nat
  streams : List Stream
deriving DecidableEq

/-- `MkvFile::audio_streams` (src/ffprobe/mkv.rs:48). -/
def MkvFile.audio_streams (m : MkvFile) : List Stream :=
  m.streams.filter (fun s => s.codec_type.is_audio)

/-- `MkvFile::video_streams` (src/ffprobe/mkv.rs:56). -/
def MkvFile.video_streams (m : MkvFile) : List Stream :=
  m.streams.filter (fun s => s.codec_type.is_video)

/-- `MkvFile::subtitles_streams` (src/ffprobe/mkv.rs:64). -/
def MkvFile.subtitles_streams (m : MkvFile) : List Stream :=
  m.streams.filter (fun s => s.codec_type.is_subtitle)

/-- `MkvFile::attachments` (src/ffprobe/mkv.rs:40). -/
def MkvFile.attachments (m : MkvFile) : List Stream :=
  m.streams.filter (fun s => s.codec_type.is_attachment)

/-- Probe failure taxonomy, mirroring `ProbeError` in src/ffprobe/error.rs.
The payloads of `ExecError`/`SerdeError` are opaque library errors; they
carry no data the driver inspects, so they are nullary here. -/
inductive ProbeError where
  | numParseError (s : String)
  | unknownCodecType (s : String)
  | execError
  | serdeError
deriving DecidableEq

/-! ## Constants (src/main.rs:576) -/

def ASS_CODEC : String := "ass"

def TARGET_CODEC : String := "av1"

def OK_SUB_LANGS : List String := ["eng", "enm", "jpn", "spa", "und"]

def BAD_SUB_WORDS : List String :=
  ["s&s", "signs", "songs", "spain", "closed", "captions", "closed captions", "commentary"]

def LOSSLESS_AUDIO_CODECS : List String := ["dts", "flac", "truehd", "pcm_s24le"]

/-! ## String helpers

`str::contains` with a string pattern is substring search; `to_lowercase`
lower-cases (the titles involved are ASCII, where `Char.toLower` and
Rust's `to_lowercase` agree). -/

/-- Substring test on character lists: does `needle` occur contiguously? -/
def listContainsSub (needle : List Char) : List Char → Bool
  | [] => needle.isEmpty
  | c :: rest => needle.isPrefixOf (c :: rest) || listContainsSub needle rest

/-- `haystack.contains(needle)` for string patterns. -/
def strContains (haystack needle : String) : Bool :=
  listContainsSub needle.toList haystack.toList

/-- Rust's `to_lowercase` (over the ASCII titles in play).  Core's
`String.toLower` maps the same `Char.toLower` but through `String.map`,
whose well-founded recursion does not reduce in the kernel, so we map
over the character list directly. -/
def str_to_lowercase (s : String) : String :=
  ⟨s.data.map Char.toLower⟩

/-! ## Video decision (src/main.rs:364, `analyze_video`) -/

/-- `ByteSize::mib(600)` in bytes (bytesize crate: 1 MiB = 1024 * 1024). -/
def SMALL_FILE_THRESHOLD : Nat := 600 * 1024 * 1024

/-- A dummy stream standing in for the value Rust would panic on when
indexing `video_streams()[0]` of a file with no video stream — the spec
declares such a call a precondition violation, and every theorem below
supplies at least one video stream. -/
def emptyStream : Stream := ⟨"", .video "" ""⟩

/-- `analyze_video` (src/main.rs:364): files under 600 MiB are never
transcoded; otherwise transcode exactly when the first video stream's
codec is not the target codec. -/
def analyze_video (mkv : MkvFile) : Bool :=
  if mkv.size < SMALL_FILE_THRESHOLD then
    false
  else
    (mkv.video_streams.headD emptyStream).codec != TARGET_CODEC

/-! ## Concrete probe results used by the claim theorems -/

/-- A 100 MiB file whose first (only) video stream is h264. -/
def c3_file : MkvFile :=
  { size := 100 * 1024 * 1024, duration := 24 * 60,
    streams := [⟨"h264", .video "und" ""⟩] }

/-- A 700 MiB file whose first (only) video stream is h264. -/
def c3_witness_file : MkvFile :=
  { size := 700 * 1024 * 1024, duration := 24 * 60,
    streams := [⟨"h264", .video "und" ""⟩] }

/-- A 900 MiB, 24-minute file already in the target codec. -/
def c4_file : MkvFile :=
  { size := 900 * 1024 * 1024, duration := 24 * 60,
    streams := [⟨"av1", .video "und" ""⟩] }

/-! ## Audio selection (src/main.rs:478, `analyze_audio_tracks`) -/

/-- Language allow filter on audio streams (src/main.rs:493). -/
def audio_lang_ok (s : Stream) : Bool :=
  let l := s.stream_language
  l.isEmpty || l == "jpn" || l == "chi" || l == "und"

/-- Commentary/description/English-dub title filter (src/main.rs:498). -/
def audio_title_ok (s : Stream) : Bool :=
  let n := str_to_lowercase s.stream_title
  !(strContains n "commentary") && !(strContains n "description") &&
    (!(strContains n "eng") || !(strContains n "english"))

/-- The audio set remaining after the language and title filters
(src/main.rs:489-503). -/
def filtered_audio (mkv : MkvFile) : List (Nat × Stream) :=
  (mkv.audio_streams.enum.filter (fun p => audio_lang_ok p.2)).filter
    (fun p => audio_title_ok p.2)

/-- Stereo-or-unknown channel test (src/main.rs:509-511; `== 0` is the
source's fallback for streams whose channel count failed to parse). -/
def stereo_ok (s : Stream) : Bool :=
  s.channels == 2 || s.channels == 0

/-- `analyze_audio_tracks` (src/main.rs:478). -/
def analyze_audio_tracks (mkv : MkvFile) : List (Nat × Stream) :=
  let all := mkv.audio_streams
  if all.length == 1 then
    all.enum
  else
    let preserved := filtered_audio mkv
    if 1 < preserved.length then
      let jpn_stereo := preserved.filter (fun p => stereo_ok p.2)
      if !jpn_stereo.isEmpty then jpn_stereo else preserved
    else
      preserved

/-- Three audio tracks: 5.1 Japanese, stereo Japanese, stereo English. -/
def c7_file : MkvFile :=
  { size := 700 * 1024 * 1024, duration := 24 * 60,
    streams :=
      [⟨"dts", .audio "jpn" "Surround" 6⟩,
       ⟨"aac", .audio "jpn" "Stereo" 2⟩,
       ⟨"aac", .audio "eng" "English" 2⟩] }

/-! ## Command builder fragments (src/main.rs:106-248) -/

/-- `ByteSize::gb(3)` in bytes (bytesize crate: 1 GB = 10^9 bytes). -/
def PRELOAD_THRESHOLD : Nat := 3 * 1000 * 1000 * 1000

/-- Input-delivery arguments (src/main.rs:113-148).  `read_ok` is the
outcome of the `fs::read` call when one is attempted.  In the read
failure arm the source logs "Falling back to reading from disk" but
pushes nothing: the argument list gains no input at all. -/
def input_args (transcode_video preload_file : Bool) (size : Nat) (read_ok : Bool)
    (path : String) : List String :=
  if transcode_video && preload_file && decide (size < PRELOAD_THRESHOLD) then
    if read_ok then ["-i", "pipe:0"] else []
  else
    ["-i", path]

/-- Input-delivery mode labels for the branches of src/main.rs:113-148:
`inline` is the branch that pushes `pipe:0` and later feeds the buffered
bytes to the encoder's stdin; `pathRef` covers every branch that does
not deliver bytes inline. -/
inductive InputMode where
  | inline
  | pathRef
deriving DecidableEq

/-- Which delivery mode the branch structure of src/main.rs:113-148
selects. -/
def input_mode (transcode_video preload_file : Bool) (size : Nat) (read_ok : Bool) :
    InputMode :=
  if transcode_video && preload_file && decide (size < PRELOAD_THRESHOLD) then
    if read_ok then .inline else .pathRef
  else .pathRef

/-- A size comfortably below the preload threshold. -/
def c8_size : Nat := 100 * 1024 * 1024

/-- Subtitle mapping arguments (src/main.rs:154-166): one bulk `0:s`
map when every subtitle was kept and at least one exists, otherwise a
per-index map for each kept subtitle. -/
def sub_map_args (kept_subs : List (Nat × Stream)) (total_subs : Nat) : List String :=
  if !kept_subs.isEmpty && kept_subs.length == total_subs then
    ["-map", "0:s"]
  else
    kept_subs.flatMap (fun p => ["-map", "0:s:" ++ toString p.1])

/-- Attachment mapping arguments (src/main.rs:184-194), same shape with
the `0:t` selector. -/
def att_map_args (kept_attachments : List (Nat × Stream)) (total_attachments : Nat) :
    List String :=
  if !kept_attachments.isEmpty && kept_attachments.length == total_attachments then
    ["-map", "0:t"]
  else
    kept_attachments.flatMap (fun p => ["-map", "0:t:" ++ toString p.1])

/-! ## Batch driver, executor and finalizer (src/main.rs:80-351)

The loop body's interactions with the outside world (probe, `fs::read`,
`spawn`, `wait`, `fs::copy`, hashing, `fs::remove_file`) are recorded in
a per-file environment; the loop becomes recursion over the environment
list. -/

/-- `TranscodeMode` (src/args.rs:13). -/
inductive TranscodeMode where
  | auto
  | force
  | never
deriving DecidableEq

/-- `PreloadMode` (src/args.rs:6). -/
inductive PreloadMode where
  | auto
  | force
  | never
deriving DecidableEq

/-- The configuration `Cruncher` carries (src/main.rs:21). -/
structure BatchCfg where
  intermediate_configured : Bool
  transcode_mode : TranscodeMode
  preload_mode : PreloadMode
deriving DecidableEq

/-- Outcomes of the external effects during one file's processing.
`wait_outcome = some c` models `handle.wait()` returning `Ok(status)`
with exit code `c` — which `.is_ok()` accepts for every `c`, zero or
not; `none` models `wait()` itself failing with an I/O error. -/
structure FileEnv where
  name : String
  probe : Except ProbeError MkvFile
  read_ok : Bool
  spawn_ok : Bool
  wait_outcome : Option Int
  copy_ok : Bool
  /-- Byte count returned by `fs::copy`; the source discards it. -/
  bytes_copied : Nat
  /-- Size of the staged output file; the source never reads it. -/
  staged_size : Nat
  staged_hash : Nat
  dest_hash : Nat
  remove_ok : Bool
  target_exists : Bool
  remove_target_ok : Bool

/-- How one file's iteration of the loop body ended. -/
inductive FileStep where
  | spawnFailed
  | finalized
  | waitFailed
  | panicked (msg : String)
deriving DecidableEq

/-- One iteration of the loop body after a successful probe
(src/main.rs:90-317).  `handle.wait().is_ok()` is the `some _code`
case: it holds for every exit status, so the success path (copy to the
output directory, optional hash check, removal of the staged file) runs
no matter what code the encoder exited with; the `else` branch that
removes the staged output is reached only when `wait()` itself errors. -/
def process_file (cfg : BatchCfg) (mkv : MkvFile) (env : FileEnv) : FileStep :=
  let transcode_video :=
    match cfg.transcode_mode with
    | .auto => analyze_video mkv
    | .force => true
    | .never => false
  if env.spawn_ok then
    match env.wait_outcome with
    | some _code =>
      if cfg.intermediate_configured then
        if env.copy_ok then
          if transcode_video && !(env.staged_hash == env.dest_hash) then
            .panicked "Hash mismatch on output file!"
          else if env.remove_ok then
            .finalized
          else
            .panicked "Failed to remove processed file from intermediate dir"
        else
          .panicked "Failed to copy processed file from intermediate dir"
      else
        .finalized
    | none =>
      if env.target_exists then
        if env.remove_target_ok then .waitFailed
        else .panicked "Failed to remove output file"
      else
        .waitFailed
  else
    .spawnFailed

/-- How `start_cruncher` (and `main` around it) left the batch. -/
inductive BatchOutcome where
  | finished
  | erroredOut (e : ProbeError)
  | panicked (msg : String)
deriving DecidableEq

/-- The per-file loop of `start_cruncher` (src/main.rs:83-318): the `?`
on `probe_file` propagates a probe error out of the whole loop
immediately, a panic aborts the process, and every other step falls
through to the next file.  Returns the processed (name, step) pairs in
order together with the batch outcome. -/
def run_batch (cfg : BatchCfg) : List FileEnv → List (String × FileStep) × BatchOutcome
  | [] => ([], .finished)
  | env :: rest =>
    match env.probe with
    | .error e => ([], .erroredOut e)
    | .ok mkv =>
      match process_file cfg mkv env with
      | .panicked msg => ([(env.name, .panicked msg)], .panicked msg)
      | step =>
        let (others, out) := run_batch cfg rest
        ((env.name, step) :: others, out)

/-- `main` (src/main.rs:338-350) purges files containing "mkv" from the
intermediate directory only when `start_cruncher` returned an `Err` —
which only the probe `?` produces; a panic aborts before that check. -/
def purge_runs : BatchOutcome → Bool
  | .erroredOut _ => true
  | _ => false

/-! ## Concrete batch environments used by the claim theorems -/

/-- A minimal well-formed probed file (not transcoded: size 0). -/
def plain_file : MkvFile :=
  { size := 0, duration := 60, streams := [⟨"av1", .video "und" ""⟩] }

/-- Environment of a file whose probe fails with a malformed numeric
field. -/
def bad_probe_env : FileEnv :=
  { name := "broken.mkv", probe := .error (.numParseError "N/A"),
    read_ok := true, spawn_ok := true, wait_outcome := some 0,
    copy_ok := true, bytes_copied := 0, staged_size := 0,
    staged_hash := 0, dest_hash := 0, remove_ok := true,
    target_exists := false, remove_target_ok := true }

/-- Environment of a file that probes and encodes cleanly. -/
def good_env : FileEnv :=
  { name := "fine.mkv", probe := .ok plain_file,
    read_ok := true, spawn_ok := true, wait_outcome := some 0,
    copy_ok := true, bytes_copied := 0, staged_size := 0,
    staged_hash := 0, dest_hash := 0, remove_ok := true,
    target_exists := false, remove_target_ok := true }

/-- Environment of a file whose encoder exits with status code 1. -/
def exit1_env : FileEnv :=
  { name := "fail.mkv", probe := .ok plain_file,
    read_ok := true, spawn_ok := true, wait_outcome := some 1,
    copy_ok := true, bytes_copied := 0, staged_size := 0,
    staged_hash := 0, dest_hash := 0, remove_ok := true,
    target_exists := true, remove_target_ok := true }

/-- The same healthy file processed after the failing one. -/
def exit0_env : FileEnv :=
  { exit1_env with name := "next.mkv", wait_outcome := some 0 }

/-- Finalization environment whose `fs::copy` reports 5 bytes copied
while the staged file is 10 bytes, checksums agreeing. -/
def mismatch_env : FileEnv :=
  { name := "copy.mkv", probe := .ok plain_file,
    read_ok := true, spawn_ok := true, wait_outcome := some 0,
    copy_ok := true, bytes_copied := 5, staged_size := 10,
    staged_hash := 7, dest_hash := 7, remove_ok := true,
    target_exists := true, remove_target_ok := true }

/-- `mismatch_env` with disagreeing checksums. -/
def hash_mismatch_env : FileEnv :=
  { mismatch_env with name := "corrupt.mkv", staged_hash := 1, dest_hash := 2 }

/-! ## Subtitle selection (src/main.rs:375, `analyze_sub_tracks`) -/

/-- The subtitle dedup key (src/main.rs:393-408): title if non-empty,
else language. -/
def sub_key (s : Stream) : String :=
  if s.stream_title.isEmpty then s.stream_language else s.stream_title

/-- Rust's `Vec::dedup_by` loop with an explicit anchor: `a` is the last
element kept; a following element with the same key is dropped (the
anchor stays), a differing one is kept and becomes the new anchor. -/
def dedup_from {α : Type} (key : α → String) (a : α) : List α → List α
  | [] => [a]
  | b :: rest =>
    if key a = key b then dedup_from key a rest
    else a :: dedup_from key b rest

/-- Rust's `Vec::dedup_by_key` (src/main.rs:401): removes all but the
first of consecutive elements resolving to the same key. -/
def dedup_by_key {α : Type} (key : α → String) : List α → List α
  | [] => []
  | a :: rest => dedup_from key a rest

/-- Model of `slice::sort_unstable_by_key` (src/main.rs:393) on the
regime where its behaviour is determined: for slices of at most 20
elements the standard library runs plain insertion sort, which is what
this definition implements, so on that regime the model is exact (tie
order included).  For longer slices the library promises only some
key-sorted permutation with unspecified tie order; this definition is
then merely one admissible refinement, and no theorem in this file
asserts anything about a list longer than 20 elements — the C6 theorem
carries that length bound as a hypothesis. -/
def sort_unstable_by_key_model (l : List (Nat × Stream)) : List (Nat × Stream) :=
  List.insertionSort (fun a b : Nat × Stream => sub_key a.2 ≤ sub_key b.2) l

/-- The sort-then-dedup stage of `analyze_sub_tracks`
(src/main.rs:393-408), with the sort modelled by
`sort_unstable_by_key_model` (exact for at most 20 subtitle tracks,
see there). -/
def deduped_subs (mkv : MkvFile) : List (Nat × Stream) :=
  dedup_by_key (fun p => sub_key p.2)
    (sort_unstable_by_key_model mkv.subtitles_streams.enum)

/-- Unwanted-title filter with the Japanese override (src/main.rs:418-436). -/
def sub_keep_title (s : Stream) : Bool :=
  let name := str_to_lowercase s.stream_title
  if strContains name "jap" || strContains name "jpn" || s.stream_language == "jpn" then
    true
  else
    !(BAD_SUB_WORDS.any (fun w => name == w || strContains name w))

/-- Language allow-list filter (src/main.rs:438-440). -/
def sub_lang_ok (s : Stream) : Bool :=
  OK_SUB_LANGS.contains s.stream_language

/-- ASS-preference filter (src/main.rs:442-449). -/
def sub_ass_ok (has_ass : Bool) (s : Stream) : Bool :=
  if has_ass then s.codec == ASS_CODEC || s.stream_language == "jpn"
  else true

/-- `analyze_sub_tracks` (src/main.rs:375). -/
def analyze_sub_tracks (mkv : MkvFile) : List (Nat × Stream) :=
  let all := mkv.subtitles_streams
  if all.length == 1 then
    all.enum
  else
    let preserved := deduped_subs mkv
    let has_ass := 0 < (preserved.filter (fun p => p.2.codec == ASS_CODEC)).length
    ((preserved.filter (fun p => sub_keep_title p.2)).filter
        (fun p => sub_lang_ok p.2)).filter
      (fun p => sub_ass_ok has_ass p.2)

/-- Two subtitle tracks share the key "Signs"; a third has key "jpn". -/
def c6_file : MkvFile :=
  { size := 700 * 1024 * 1024, duration := 24 * 60,
    streams :=
      [⟨"subrip", .subtitle "eng" "Signs"⟩,
       ⟨"ass", .subtitle "eng" "Signs"⟩,
       ⟨"ass", .subtitle "jpn" ""⟩] }

/-! ## Theorems: helper lemmas, then one theorem per claim -/

/-- C3 counterexample: the claim says that in auto mode any file whose
first video codec differs from the target codec gets a true transcode
decision regardless of size; this 100 MiB h264 file differs from the
target codec yet `analyze_video` returns false (the sub-600 MiB check
fires first). -/
theorem C3_counterexample :
    (c3_file.video_streams.headD emptyStream).codec ≠ TARGET_CODEC ∧
    analyze_video c3_file = false := by
  exact ⟨by decide, rfl⟩

/-- C3 amended: in auto mode the decision is true exactly when the file
is at least 600 MiB (`ByteSize::mib(600)`) and the first video stream's
codec differs from the target codec; files under 600 MiB always get
false, and duration is never consulted. -/
theorem C3_amended_decision (mkv : MkvFile) (v : Stream) (rest : List Stream)
    (h : mkv.video_streams = v :: rest) :
    analyze_video mkv =
      (decide (SMALL_FILE_THRESHOLD ≤ mkv.size) && (v.codec != TARGET_CODEC)) := by
  unfold analyze_video
  rw [h]
  by_cases hs : mkv.size < SMALL_FILE_THRESHOLD
  · simp [hs, Nat.not_le_of_lt hs]
  · simp [hs, Nat.le_of_not_lt hs]

theorem C3_amended_witness :
    analyze_video c3_witness_file =
      (decide (SMALL_FILE_THRESHOLD ≤ c3_witness_file.size) && ("h264" != TARGET_CODEC)) :=
  C3_amended_decision c3_witness_file ⟨"h264", .video "und" ""⟩ [] rfl

/-- C4 counterexample: the claim says a target-codec file under 55
minutes is transcoded exactly when its size exceeds the small-file
threshold, so this 900 MiB 24-minute av1 file should yield true; the
code yields false (files already in the target codec are never
transcoded, at any size). -/
theorem C4_counterexample :
    (c4_file.video_streams.headD emptyStream).codec = TARGET_CODEC ∧
    SMALL_FILE_THRESHOLD < c4_file.size ∧
    c4_file.duration < 55 * 60 ∧
    analyze_video c4_file = false := by
  exact ⟨rfl, by decide, by decide, rfl⟩

/-- C4 amended: in auto mode a file whose first video stream already
uses the target codec is never transcoded, regardless of its size or
duration; in particular both the 400 MiB and the 900 MiB 24-minute
scenario files yield false. -/
theorem C4_target_codec_never_transcoded (mkv : MkvFile) (v : Stream) (rest : List Stream)
    (h : mkv.video_streams = v :: rest) (hc : v.codec = TARGET_CODEC) :
    analyze_video mkv = false := by
  unfold analyze_video
  rw [h]
  simp [List.headD, hc]

theorem C4_amended_witness : analyze_video c4_file = false :=
  C4_target_codec_never_transcoded c4_file ⟨"av1", .video "und" ""⟩ [] rfl rfl

/-- C7: whenever more than one audio stream survives the language and
title filters and the stereo-or-unknown-channel subset of the survivors
is non-empty, the final audio selection is exactly that subset. -/
theorem C7_stereo_subset_selected (mkv : MkvFile)
    (h1 : 1 < (filtered_audio mkv).length)
    (h2 : (filtered_audio mkv).filter (fun p => stereo_ok p.2) ≠ []) :
    analyze_audio_tracks mkv = (filtered_audio mkv).filter (fun p => stereo_ok p.2) := by
  have hlen : (filtered_audio mkv).length ≤ mkv.audio_streams.length := by
    calc (filtered_audio mkv).length
        ≤ (mkv.audio_streams.enum.filter (fun p => audio_lang_ok p.2)).length :=
          List.length_filter_le _ _
      _ ≤ mkv.audio_streams.enum.length := List.length_filter_le _ _
      _ = mkv.audio_streams.length := List.enum_length
  have hne : (mkv.audio_streams.length == 1) = false := by
    simp only [beq_eq_false_iff_ne, ne_eq]
    omega
  have hest : ((filtered_audio mkv).filter (fun p => stereo_ok p.2)).isEmpty = false := by
    cases hfe : (filtered_audio mkv).filter (fun p => stereo_ok p.2) with
    | nil => exact absurd hfe h2
    | cons a l => rfl
  unfold analyze_audio_tracks
  simp [hne, h1, hest]

theorem C7_witness :
    analyze_audio_tracks c7_file = (filtered_audio c7_file).filter (fun p => stereo_ok p.2) :=
  C7_stereo_subset_selected c7_file (by decide) (by decide)

/-- C8 counterexample: the claim says delivery is inline exactly when
the size is below the preload threshold, but when video is not being
transcoded (here both flags false, as happens for any file the video
decision leaves alone under auto preload) a file far below the
threshold is still delivered by path. -/
theorem C8_counterexample :
    c8_size < PRELOAD_THRESHOLD ∧ input_mode false false c8_size true ≠ .inline := by
  exact ⟨by decide, by decide⟩

/-- C8 amended: delivery is inline exactly when video is being
transcoded, preload is enabled, the size is below `ByteSize::gb(3)` =
3x10^9 bytes, and the in-memory read succeeds; in every other case the
bytes are not delivered inline. -/
theorem C8_inline_iff (tv pf : Bool) (size : Nat) (ro : Bool) :
    input_mode tv pf size ro = .inline ↔
      (tv = true ∧ pf = true ∧ size < PRELOAD_THRESHOLD ∧ ro = true) := by
  unfold input_mode
  cases tv <;> cases pf <;> cases ro <;>
    by_cases h : size < PRELOAD_THRESHOLD <;> simp [h]

/-- C10: a file qualifying for preload (video transcoded, preload on,
1 GB < 3 GB threshold) whose `fs::read` fails produces an argument list
with no input argument at all — the "-i" / path fallback the source's
own log message announces is never pushed — while the same file with a
successful read is delivered via stdin. -/
theorem C10_read_failure_drops_input :
    input_args true true (1000 * 1000 * 1000) false "/library/ep01.mkv" = [] ∧
    input_args true true (1000 * 1000 * 1000) true "/library/ep01.mkv" = ["-i", "pipe:0"] := by
  exact ⟨by decide, by decide⟩

/-- Membership of the bulk tag in a mapping-argument block of the shape
shared by the subtitle and attachment sections. -/
theorem mem_map_category (tag pre : String) (kept : List (Nat × Stream)) (total : Nat)
    (hne : tag ≠ "-map") (hlt : tag.length < pre.length) :
    (tag ∈ (if !kept.isEmpty && kept.length == total then ["-map", tag]
            else kept.flatMap (fun p => ["-map", pre ++ toString p.1]))) ↔
      kept ≠ [] ∧ kept.length = total := by
  by_cases hc : !kept.isEmpty && kept.length == total
  · rw [if_pos hc]
    rw [Bool.and_eq_true, Bool.not_eq_true', beq_iff_eq] at hc
    obtain ⟨hic, h2⟩ := hc
    have h1 : kept ≠ [] := by
      cases kept with
      | nil => simp at hic
      | cons a l => exact List.cons_ne_nil _ _
    simp [h1, h2]
  · rw [if_neg hc]
    constructor
    · intro hmem
      exfalso
      rcases List.mem_flatMap.mp hmem with ⟨p, _, hin⟩
      simp only [List.mem_cons, List.not_mem_nil, or_false] at hin
      rcases hin with h | h
      · exact hne h
      · have := congrArg String.length h
        rw [String.length_append] at this
        omega
    · rintro ⟨h1, h2⟩
      exfalso
      apply hc
      rw [Bool.and_eq_true, Bool.not_eq_true', beq_iff_eq]
      refine ⟨?_, h2⟩
      cases kept with
      | nil => exact absurd rfl h1
      | cons a l => rfl

/-- C9: the bulk "map whole category" argument (`0:s` for subtitles,
`0:t` for attachments) appears in the emitted mapping arguments exactly
when that category's selection is non-empty and kept every track; in
particular it is never emitted when zero tracks were selected. -/
theorem C9_bulk_map_iff (kept_subs kept_attachments : List (Nat × Stream))
    (total_subs total_attachments : Nat) :
    ("0:s" ∈ sub_map_args kept_subs total_subs ↔
      kept_subs ≠ [] ∧ kept_subs.length = total_subs) ∧
    ("0:t" ∈ att_map_args kept_attachments total_attachments ↔
      kept_attachments ≠ [] ∧ kept_attachments.length = total_attachments) := by
  constructor
  · exact mem_map_category "0:s" "0:s:" kept_subs total_subs (by decide) (by decide)
  · exact mem_map_category "0:t" "0:t:" kept_attachments total_attachments
      (by decide) (by decide)

/-- C1 counterexample: the claim says a probe failure skips only that
file and the batch continues, but with a batch of a failing-probe file
followed by a perfectly fine file, the driver aborts at once: nothing
is processed — not even the fine file, which on its own finishes — and
the batch ends in the propagated probe error. -/
theorem C1_counterexample :
    run_batch ⟨true, .auto, .auto⟩ [bad_probe_env, good_env] =
      ([], .erroredOut (.numParseError "N/A")) ∧
    run_batch ⟨true, .auto, .auto⟩ [good_env] =
      ([("fine.mkv", .finalized)], .finished) := by
  exact ⟨rfl, rfl⟩

/-- C1 amended: a probe failure is fatal to the whole batch: the `?` on
`probe_file` propagates the error out of the loop immediately, no file
of the batch (the failing one included) is processed further, and
`main` responds to the returned error by purging the intermediate
directory. -/
theorem C1_probe_error_aborts (cfg : BatchCfg) (env : FileEnv) (rest : List FileEnv)
    (e : ProbeError) (h : env.probe = .error e) :
    run_batch cfg (env :: rest) = ([], .erroredOut e) ∧
    purge_runs (run_batch cfg (env :: rest)).2 = true := by
  have hmain : run_batch cfg (env :: rest) = ([], .erroredOut e) := by
    simp [run_batch, h]
  exact ⟨hmain, by rw [hmain]; rfl⟩

theorem C1_amended_witness :
    run_batch ⟨true, .auto, .auto⟩ [bad_probe_env] = ([], .erroredOut (.numParseError "N/A")) ∧
    purge_runs (run_batch ⟨true, .auto, .auto⟩ [bad_probe_env]).2 = true :=
  C1_probe_error_aborts ⟨true, .auto, .auto⟩ bad_probe_env [] (.numParseError "N/A") rfl

/-- C2 (code bug): an encoder run that exits with the non-zero code 1
is accepted by `handle.wait().is_ok()`, which is true for every exit
status: the staged output IS finalized (copied to the destination
directory and the staged copy removed) and the loop continues with the
next file, the batch finishing normally — whereas the claim (and the
encoder contract, exit code 0 = success) requires a Failed outcome with
no finalization and an immediate stop of the batch. -/
theorem C2_nonzero_exit_finalized_and_continues :
    exit1_env.wait_outcome = some 1 ∧
    run_batch ⟨true, .auto, .auto⟩ [exit1_env, exit0_env] =
      ([("fail.mkv", .finalized), ("next.mkv", .finalized)], .finished) := by
  exact ⟨rfl, rfl⟩

/-- C5 counterexample: the number of bytes `fs::copy` reports differs
from the staged file's size, yet finalization succeeds, the batch
finishes, and no purge of the intermediate directory happens — the
source discards the copy's byte count and never reads the staged size,
so the verification the claim describes does not exist. -/
theorem C5_counterexample :
    mismatch_env.bytes_copied ≠ mismatch_env.staged_size ∧
    run_batch ⟨true, .auto, .auto⟩ [mismatch_env] =
      ([("copy.mkv", .finalized)], .finished) ∧
    purge_runs (run_batch ⟨true, .auto, .auto⟩ [mismatch_env]).2 = false := by
  exact ⟨by decide, rfl, rfl⟩

/-- C5 amended: finalization performs no byte-count verification at all
— the byte count returned by the copy and the staged file's size have
no effect on any outcome — and the only integrity check is the seahash
comparison made when video was transcoded, whose mismatch panics,
aborting the run at that file without the intermediate-directory purge
(the purge only follows errors returned as `Err`, i.e. probe errors). -/
theorem C5_no_byte_verification (cfg : BatchCfg) (mkv : MkvFile) (env : FileEnv)
    (b s : Nat) (c : Int) (rest : List FileEnv)
    (hp : env.probe = .ok mkv) (hspawn : env.spawn_ok = true)
    (hw : env.wait_outcome = some c) (hint : cfg.intermediate_configured = true)
    (hcopy : env.copy_ok = true) (htm : cfg.transcode_mode = .force)
    (hhash : env.staged_hash ≠ env.dest_hash) :
    process_file cfg mkv { env with bytes_copied := b, staged_size := s } =
      process_file cfg mkv env ∧
    process_file cfg mkv env = .panicked "Hash mismatch on output file!" ∧
    purge_runs (run_batch cfg (env :: rest)).2 = false := by
  have hbeq : (env.staged_hash == env.dest_hash) = false := beq_eq_false_iff_ne.mpr hhash
  have hproc : process_file cfg mkv env = .panicked "Hash mismatch on output file!" := by
    simp [process_file, hspawn, hw, hint, hcopy, htm, hbeq]
  refine ⟨rfl, hproc, ?_⟩
  simp [run_batch, hp, hproc, purge_runs]

theorem C5_amended_witness :
    process_file ⟨true, .force, .auto⟩ plain_file
        { hash_mismatch_env with bytes_copied := 0, staged_size := 0 } =
      process_file ⟨true, .force, .auto⟩ plain_file hash_mismatch_env ∧
    process_file ⟨true, .force, .auto⟩ plain_file hash_mismatch_env =
      .panicked "Hash mismatch on output file!" ∧
    purge_runs (run_batch ⟨true, .force, .auto⟩ [hash_mismatch_env]).2 = false :=
  C5_no_byte_verification ⟨true, .force, .auto⟩ plain_file hash_mismatch_env
    0 0 0 [] rfl rfl rfl rfl rfl rfl (by decide)

/-! ## Stability development for C6

The subtitle dedup claim needs that a stable sort by key followed by
consecutive dedup keeps exactly the first element of each key class in
the original order.  We prove: filtering the sorted list to one key
value is unchanged by the sort (stability), and filtering the deduped
sorted list to one key value keeps exactly the head of that filter. -/

theorem filter_orderedInsert_key {α : Type} (key : α → String) (c : String) (x : α) :
    ∀ l : List α,
      List.filter (fun y => key y == c)
          (List.orderedInsert (fun a b => key a ≤ key b) x l) =
        if key x = c then x :: List.filter (fun y => key y == c) l
        else List.filter (fun y => key y == c) l
  | [] => by
      by_cases h : key x = c <;> simp [List.orderedInsert, List.filter_cons, h]
  | y :: ys => by
      rw [List.orderedInsert]
      by_cases hr : key x ≤ key y
      · rw [if_pos hr]
        by_cases h : key x = c <;> simp [List.filter_cons, h]
      · rw [if_neg hr]
        rw [List.filter_cons, List.filter_cons,
          filter_orderedInsert_key key c x ys]
        have hyx : key y < key x := not_le.mp hr
        by_cases h : key x = c
        · have hy : (key y == c) = false := by
            rw [beq_eq_false_iff_ne]
            intro hyc
            exact absurd (h ▸ hyc ▸ hyx) (lt_irrefl _)
          simp [h, hy]
        · simp [h]

theorem filter_insertionSort_key {α : Type} (key : α → String) (c : String) :
    ∀ l : List α,
      List.filter (fun y => key y == c)
          (List.insertionSort (fun a b => key a ≤ key b) l) =
        List.filter (fun y => key y == c) l
  | [] => rfl
  | a :: l => by
      rw [List.insertionSort, filter_orderedInsert_key key c a,
        filter_insertionSort_key key c l]
      by_cases h : key a = c <;> simp [List.filter_cons, h]

theorem sorted_insertionSort_key {α : Type} (key : α → String) (l : List α) :
    List.Sorted (fun a b => key a ≤ key b)
      (List.insertionSort (fun a b => key a ≤ key b) l) := by
  haveI : IsTotal α (fun a b => key a ≤ key b) := ⟨fun a b => le_total _ _⟩
  haveI : IsTrans α (fun a b => key a ≤ key b) :=
    ⟨fun _ _ _ hab hbc => le_trans hab hbc⟩
  exact List.sorted_insertionSort _ l

theorem filter_dedup_from {α : Type} (key : α → String) (c : String) :
    ∀ (l : List α) (a : α),
      List.Sorted (fun x y => key x ≤ key y) (a :: l) →
      List.filter (fun x => key x == c) (dedup_from key a l) =
        (List.filter (fun x => key x == c) (a :: l)).take 1
  | [], a, _ => by
      by_cases h : key a = c <;> simp [dedup_from, List.filter_cons, h]
  | b :: rest, a, hs => by
      rcases List.sorted_cons.mp hs with ⟨ha, hs2⟩
      rw [dedup_from]
      by_cases hab : key a = key b
      · rw [if_pos hab]
        have hsar : List.Sorted (fun x y => key x ≤ key y) (a :: rest) := by
          rcases List.sorted_cons.mp hs2 with ⟨_, hs3⟩
          exact List.sorted_cons.mpr
            ⟨fun x hx => ha x (List.mem_cons_of_mem _ hx), hs3⟩
        rw [filter_dedup_from key c rest a hsar]
        by_cases hac : key a = c
        · have hbc : key b = c := hab ▸ hac
          simp [List.filter_cons, hac, hbc]
        · have hbc : ¬ key b = c := fun hx => hac (hab.trans hx)
          simp [List.filter_cons, hac, hbc]
      · rw [if_neg hab]
        rw [List.filter_cons]
        rw [filter_dedup_from key c rest b hs2]
        by_cases hac : key a = c
        · have hba : key a < key b :=
            lt_of_le_of_ne (ha b (List.mem_cons_self _ _)) hab
          have hemp : List.filter (fun x => key x == c) (b :: rest) = [] := by
            rw [List.filter_eq_nil_iff]
            intro x hx
            have hbx : key b ≤ key x := by
              rcases List.mem_cons.mp hx with hxb | hxr
              · exact hxb ▸ le_refl _
              · exact (List.sorted_cons.mp hs2).1 x hxr
            simp only [beq_iff_eq]
            intro hxc
            exact absurd (lt_of_lt_of_le hba hbx) (by rw [hxc, hac]; exact lt_irrefl _)
          rw [hemp]
          simp [List.filter_cons, hac, hemp]
        · rw [List.filter_cons]
          by_cases hbc : key b = c <;> simp [List.filter_cons, hac, hbc]

/-- C6, confirmed on the regime where the code's tie order is
determined: for a subtitle set of at most 20 tracks (where
`sort_unstable_by_key` is the standard library's plain insertion sort,
so `sort_unstable_by_key_model` is exact) containing at least two
tracks that share the same dedup key, the deduplication stage retains,
for every key value, exactly one track — the first track in original
stream order bearing that key: filtering the deduped list to any key
`c` equals the first element (if any) of the original enumeration's
filter to `c`.  The length hypothesis confines the statement to the
slice lengths on which the model matches the program; the Lean proof
itself does not consume it, since the model sorts stably at every
length.  For longer subtitle sets the code promises one survivor per
key but not which one, and nothing is claimed. -/
theorem C6_dedup_first_seen (mkv : MkvFile) (p q : Nat × Stream)
    (_hlen : mkv.subtitles_streams.length ≤ 20)
    (_hp : p ∈ mkv.subtitles_streams.enum) (_hq : q ∈ mkv.subtitles_streams.enum)
    (_hne : p.1 ≠ q.1) (_hkey : sub_key p.2 = sub_key q.2) :
    ∀ c : String,
      (deduped_subs mkv).filter (fun x => sub_key x.2 == c) =
        (mkv.subtitles_streams.enum.filter (fun x => sub_key x.2 == c)).take 1 := by
  intro c
  unfold deduped_subs sort_unstable_by_key_model
  cases hs : List.insertionSort (fun a b : Nat × Stream => sub_key a.2 ≤ sub_key b.2)
      mkv.subtitles_streams.enum with
  | nil =>
    have henum : mkv.subtitles_streams.enum = [] := by
      have hperm := List.perm_insertionSort
        (fun a b : Nat × Stream => sub_key a.2 ≤ sub_key b.2) mkv.subtitles_streams.enum
      rw [hs] at hperm
      exact (List.Perm.nil_eq hperm).symm
    rw [henum]
    simp [dedup_by_key]
  | cons a rest =>
    have hsorted : List.Sorted (fun x y : Nat × Stream => sub_key x.2 ≤ sub_key y.2)
        (a :: rest) := by
      rw [← hs]
      exact sorted_insertionSort_key (fun p => sub_key p.2) mkv.subtitles_streams.enum
    rw [show dedup_by_key (fun p : Nat × Stream => sub_key p.2) (a :: rest) =
        dedup_from (fun p : Nat × Stream => sub_key p.2) a rest from rfl]
    rw [filter_dedup_from (fun p : Nat × Stream => sub_key p.2) c rest a hsorted]
    rw [← hs]
    rw [filter_insertionSort_key (fun p : Nat × Stream => sub_key p.2) c]

theorem C6_witness :
    (deduped_subs c6_file).filter (fun x => sub_key x.2 == "Signs") =
      (c6_file.subtitles_streams.enum.filter (fun x => sub_key x.2 == "Signs")).take 1 :=
  C6_dedup_first_seen c6_file (0, ⟨"subrip", .subtitle "eng" "Signs"⟩)
    (1, ⟨"ass", .subtitle "eng" "Signs"⟩)
    (by decide) (by decide) (by decide) (by decide) (by decide) "Signs"

end MkvCruncher
